import Mathlib

/-!
Shallow embedding of the cloud-dronitor service (src/main.py, src/config.py):
a FastAPI application that ingests CSV drone air-quality readings, stores
them in a relational table `drone_readings`, and serves them back filtered
by date, plus a file-backed read path.

Modelling conventions:
* Python `datetime.datetime` values are records of calendar fields; the
  constructor `datetime?` validates ranges and raises `ValueError` exactly as
  Python's constructor does.  Chronological comparison is modelled by a
  positional numeric encoding (`dtCode`) that agrees with Python's
  field-lexicographic datetime order on all constructor-validated values.
* Python `float` is an external builtin: the embedding is parameterised by a
  type `F` of float values together with the partial parsing function
  `float?` (Python `float(s)`, `none` modelling a raised `ValueError`) and
  the formatting functions used in f-strings (`PyExt`).
* The storage engine is the external collaborator of the spec: a list of
  rows plus a bulk insert that enforces the declared primary key on `id`
  (`dbInsertMany`), and a query that filters by the timestamp window and
  orders by timestamp descending (modelled with `List.insertionSort`).
* HTTP and unhandled Python exceptions are collapsed into `PyError`;
  serialization of a datetime with `isoformat()` at the JSON boundary is an
  order-preserving external step, so handler outputs keep the datetime value.
-/

/-- Errors a request can end in: a raised `HTTPException status detail`, an
unhandled `ValueError` (surfaced by the framework as a server error), or a
storage-layer failure such as a primary-key violation on commit. -/
inductive PyError where
  | httpException (status : Nat) (detail : String)
  | valueError
  | storageError
deriving DecidableEq, Repr

/-- Model of a Python `datetime.datetime` value (calendar fields). -/
structure PyDatetime where
  year : Nat
  month : Nat
  day : Nat
  hour : Nat
  minute : Nat
  second : Nat
  microsecond : Nat
deriving DecidableEq, Repr

/-- Gregorian leap-year test, as Python's `calendar.isleap`. -/
def isLeapYear (y : Nat) : Bool :=
  (y % 4 == 0 && y % 100 != 0) || y % 400 == 0

/-- Days in month `m` of year `y` (for `m` between 1 and 12). -/
def daysInMonth (y m : Nat) : Nat :=
  if m == 2 then (if isLeapYear y then 29 else 28)
  else if m == 4 || m == 6 || m == 9 || m == 11 then 30
  else 31

/-- Model of the Python `datetime(year, month, day, hour, minute, second)`
constructor: every component is range-checked (MINYEAR = 1, MAXYEAR = 9999)
and an out-of-range component raises `ValueError`.  Arguments are `Int`
because the query parameters are arbitrary integers. -/
def datetime? (y m d h mi s : Int) : Except PyError PyDatetime :=
  if 1 ≤ y ∧ y ≤ 9999 ∧ 1 ≤ m ∧ m ≤ 12 ∧ 1 ≤ d ∧ d ≤ (daysInMonth y.toNat m.toNat : Int)
      ∧ 0 ≤ h ∧ h ≤ 23 ∧ 0 ≤ mi ∧ mi ≤ 59 ∧ 0 ≤ s ∧ s ≤ 59 then
    .ok ⟨y.toNat, m.toNat, d.toNat, h.toNat, mi.toNat, s.toNat, 0⟩
  else
    .error .valueError

/-- Positional encoding of a datetime.  The radices strictly bound each
validated component (month ≤ 12 < 16, day ≤ 31 < 32, hour ≤ 23 < 32,
minute, second ≤ 59 < 64, microsecond < 1000000), so `Nat` order on the
codes coincides with Python's field-lexicographic datetime comparison on
all constructor-validated values. -/
def dtCode (t : PyDatetime) : Nat :=
  (((((t.year * 16 + t.month) * 32 + t.day) * 32 + t.hour) * 64 + t.minute) * 64 + t.second)
      * 1000000 + t.microsecond

/-- Model of Python `a <= b` on datetimes. -/
def dtLe (a b : PyDatetime) : Prop := dtCode a ≤ dtCode b

/-- Model of Python `a < b` on datetimes. -/
def dtLt (a b : PyDatetime) : Prop := dtCode a < dtCode b

instance (a b : PyDatetime) : Decidable (dtLe a b) := Nat.decLe _ _

instance (a b : PyDatetime) : Decidable (dtLt a b) := Nat.decLt _ _

/-- Decimal rendering of a natural number, digit accumulator with fuel
(structural recursion so that the kernel can evaluate it). -/
def pyIntReprAux : Nat → Nat → List Char
  | 0, _ => []
  | fuel + 1, n => if n = 0 then [] else pyIntReprAux fuel (n / 10) ++ [Nat.digitChar (n % 10)]

/-- Model of Python `str(i)` / f-string interpolation of a non-negative int:
its decimal digit string. -/
def pyIntRepr (n : Nat) : String :=
  if n = 0 then "0" else (pyIntReprAux n n).asString

/-- The Python builtins the handlers apply to floats, treated as external
collaborators: `float(s)` as a partial function (`none` models a raised
`ValueError`) and the f-string rendering of a float value.  `tsRepr` is the
f-string rendering of `current_time.timestamp()` used in id generation. -/
structure PyExt (F : Type) where
  float? : String → Option F
  floatRepr : F → String
  tsRepr : PyDatetime → String

/-- Row of the `drone_readings` table (the `DroneReading` model). -/
structure Reading (F : Type) where
  id : String
  longitude : F
  latitude : F
  aqi : F
  timestamp : PyDatetime
  raw_data : String
deriving DecidableEq, Repr

/-- Model of Python `str.strip()` (no argument): surrounding whitespace
removed. -/
def pyStrip (s : String) : String :=
  ((s.data.dropWhile Char.isWhitespace).reverse.dropWhile Char.isWhitespace).reverse.asString

/-- Splitting of a character list at a separator, keeping empty pieces; the
accumulator holds the current piece reversed. -/
def splitOnCharAux (sep : Char) : List Char → List Char → List (List Char)
  | [], acc => [acc.reverse]
  | c :: rest, acc =>
    if c = sep then acc.reverse :: splitOnCharAux sep rest []
    else splitOnCharAux sep rest (c :: acc)

/-- Model of Python `str.split(sep)` for a one-character separator (in
particular `"".split(sep)` is `[""]`). -/
def pySplit (sep : Char) (s : String) : List String :=
  (splitOnCharAux sep s.data []).map List.asString

/-- Configured key set: `{key.strip() for key in api_keys_str.split(",")}`
(membership in the list models membership in the Python set). -/
def get_api_keys (api_keys_str : String) : List String :=
  (pySplit ',' api_keys_str).map pyStrip

/-- Model of `verify_api_key`: passes the key through iff it is a member of
the configured key set, otherwise raises 403. -/
def verify_api_key (api_keys : List String) (api_key : String) : Except PyError String :=
  if api_key ∈ api_keys then .ok api_key
  else .error (.httpException 403 "Invalid API key")

/-- Processing of one CSV row of the upload loop body: skip unless the row
has exactly 3 fields (`len(row) != 3`) that all parse as floats, otherwise
build the `DroneReading` with
`id = f"{current_time.timestamp()}_{longitude}_{latitude}_{idx}"` and
`raw_data = ",".join(row)`. -/
def readingOfRow {F : Type} (ext : PyExt F) (now : PyDatetime) (idx : Nat)
    (row : List String) : Option (Reading F) :=
  match row with
  | [f0, f1, f2] =>
    match ext.float? f0, ext.float? f1, ext.float? f2 with
    | some longitude, some latitude, some aqi =>
      some { id := ext.tsRepr now ++ "_" ++ ext.floatRepr longitude ++ "_"
                    ++ ext.floatRepr latitude ++ "_" ++ pyIntRepr idx
             longitude := longitude
             latitude := latitude
             aqi := aqi
             timestamp := now
             raw_data := String.intercalate "," row }
    | _, _, _ => none
  | _ => none

/-- The `for idx, row in enumerate(csv_reader)` loop: `clock idx` is the
value `datetime.utcnow()` returns while row `idx` is processed. -/
def buildReadings {F : Type} (ext : PyExt F) (clock : Nat → PyDatetime)
    (rows : List (List String)) : List (Reading F) :=
  rows.enum.filterMap (fun p => readingOfRow ext (clock p.1) p.1 p.2)

/-- Rows whose fields parse: exactly the rows the upload loop keeps. -/
def validRow {F : Type} (ext : PyExt F) (row : List String) : Bool :=
  match row with
  | [f0, f1, f2] => (ext.float? f0).isSome && (ext.float? f1).isSome && (ext.float? f2).isSome
  | _ => false

/-- Store invariant: the declared primary key on the `id` column. -/
def uniqueIds {F : Type} (store : List (Reading F)) : Prop :=
  (store.map Reading.id).Nodup

instance {F : Type} (store : List (Reading F)) : Decidable (uniqueIds store) :=
  List.nodupDecidable _

/-- Model of `db.add_all(readings); await db.commit()`: the storage engine
appends the batch, or raises on a violation of the primary key on `id`. -/
def dbInsertMany {F : Type} (store new : List (Reading F)) :
    Except PyError (List (Reading F)) :=
  if uniqueIds (store ++ new) then .ok (store ++ new) else .error .storageError

/-- Outcome of an upload request: the store after the request, and the
response (the success message, or the error that was raised). -/
structure UploadOutcome (F : Type) where
  store : List (Reading F)
  response : Except PyError String
deriving Repr

/-- Model of the `POST /upload` handler over the already-tokenised CSV
record stream (`csv.reader` output). -/
def upload_data {F : Type} (ext : PyExt F) (api_keys : List String) (api_key : String)
    (clock : Nat → PyDatetime) (store : List (Reading F)) (rows : List (List String)) :
    UploadOutcome F :=
  match verify_api_key api_keys api_key with
  | .error e => ⟨store, .error e⟩
  | .ok _ =>
    let readings := buildReadings ext clock rows
    match dbInsertMany store readings with
    | .error e => ⟨store, .error e⟩
    | .ok store2 =>
      ⟨store2, .ok ("Successfully uploaded " ++ pyIntRepr readings.length ++ " readings")⟩

/-- Serialized form of a reading in the `GET /readings` response: `id` is
omitted; the timestamp is emitted with `isoformat()` at the JSON boundary,
an order-preserving external step, so the datetime value is kept here. -/
structure ReadingOut (F : Type) where
  longitude : F
  latitude : F
  aqi : F
  timestamp : PyDatetime
  raw_data : String
deriving DecidableEq, Repr

/-- Response-dict construction of the `GET /readings` handler. -/
def serializeReading {F : Type} (r : Reading F) : ReadingOut F :=
  ⟨r.longitude, r.latitude, r.aqi, r.timestamp, r.raw_data⟩

/-- Date-window construction of `get_readings`, exactly the nested `if`s of
the handler: filters apply only when `year` is present; `day` only when
`year` and `month` are; `month == 12` rolls the exclusive upper bound into
`year + 1, month = 1`; each `datetime(...)` call can raise `ValueError`. -/
def buildWindow (year month day : Option Int) :
    Except PyError (Option (PyDatetime × PyDatetime)) :=
  match year with
  | none => .ok none
  | some y =>
    match month with
    | some m =>
      match day with
      | some d =>
        match datetime? y m d 0 0 0 with
        | .error e => .error e
        | .ok start_date =>
          match datetime? y m d 23 59 59 with
          | .error e => .error e
          | .ok end_date => .ok (some (start_date, end_date))
      | none =>
        let next_year : Int := if m = 12 then y + 1 else y
        let next_month : Int := if m = 12 then 1 else m + 1
        match datetime? y m 1 0 0 0 with
        | .error e => .error e
        | .ok start_date =>
          match datetime? next_year next_month 1 0 0 0 with
          | .error e => .error e
          | .ok end_date => .ok (some (start_date, end_date))
    | none =>
      match datetime? y 1 1 0 0 0 with
      | .error e => .error e
      | .ok start_date =>
        match datetime? (y + 1) 1 1 0 0 0 with
        | .error e => .error e
        | .ok end_date => .ok (some (start_date, end_date))

/-- The WHERE clause applied to the base query:
`timestamp >= start_date, timestamp < end_date` (no clause when no window). -/
def inWindow (w : Option (PyDatetime × PyDatetime)) (t : PyDatetime) : Bool :=
  match w with
  | none => true
  | some (s, e) => decide (dtLe s t) && decide (dtLt t e)

/-- Ordering used by `order_by(DroneReading.timestamp.desc())`: `a` comes
before `b` when `a`'s timestamp is the newer (or equal) one. -/
def newerFirst {F : Type} (a b : Reading F) : Prop :=
  dtLe b.timestamp a.timestamp

instance {F : Type} : DecidableRel (@newerFirst F) :=
  fun a b => (inferInstance : Decidable (dtLe b.timestamp a.timestamp))

instance {F : Type} : IsTotal (Reading F) newerFirst :=
  ⟨fun a b => (Nat.le_total (dtCode b.timestamp) (dtCode a.timestamp)).imp id id⟩

instance {F : Type} : IsTrans (Reading F) newerFirst :=
  ⟨fun _ _ _ h1 h2 => Nat.le_trans h2 h1⟩

/-- Model of the `GET /readings` handler: key check, window construction
(raising `ValueError` on invalid dates), the filtered query ordered by
timestamp descending, the explicit empty-result branch, serialization. -/
def get_readings {F : Type} (api_keys : List String) (api_key : String)
    (store : List (Reading F)) (year month day : Option Int) :
    Except PyError (List (ReadingOut F)) :=
  match verify_api_key api_keys api_key with
  | .error e => .error e
  | .ok _ =>
    match buildWindow year month day with
    | .error e => .error e
    | .ok w =>
      let readings := (store.filter (fun r => inWindow w r.timestamp)).insertionSort newerFirst
      if readings.isEmpty then
        .ok []
      else
        .ok (readings.map serializeReading)

/-- Splitting of a string into lines at `'\n'`, `'\r\n'` or `'\r'`, with no
empty final line: the common-line-break fragment of Python
`str.splitlines()` (the exotic Unicode line boundaries are not modelled).
The first argument is recursion fuel, at least the length of the text. -/
def pySplitlinesAux : Nat → List Char → List Char → List (List Char)
  | 0, [], [] => []
  | 0, [], acc => [acc.reverse]
  | 0, _ :: _, acc => [acc.reverse]
  | _ + 1, [], [] => []
  | _ + 1, [], acc => [acc.reverse]
  | fuel + 1, '\n' :: rest, acc => acc.reverse :: pySplitlinesAux fuel rest []
  | fuel + 1, '\r' :: rest, acc =>
    acc.reverse ::
      (if rest.head? = some '\n' then pySplitlinesAux fuel rest.tail []
       else pySplitlinesAux fuel rest [])
  | fuel + 1, c :: rest, acc => pySplitlinesAux fuel rest (c :: acc)

/-- Model of Python `str.splitlines()`. -/
def pySplitlines (s : String) : List String :=
  (pySplitlinesAux s.data.length s.data []).map List.asString

/-- Field splitting of one CSV record by Python `csv.reader`'s default
dialect: delimiter `','`, quote character `'"'` recognised at field start,
a doubled quote inside a quoted field is a literal quote, text after a
closing quote is appended to the field.  The mode flag is `true` inside a
quoted field; the accumulators hold the current field reversed; the first
argument is recursion fuel, at least the length of the line. -/
def csvFieldsAux : Nat → Bool → List Char → List Char → List String
  | 0, _, _, acc => [acc.reverse.asString]
  | _ + 1, false, [], acc => [acc.reverse.asString]
  | _ + 1, true, [], acc => [acc.reverse.asString]
  | fuel + 1, false, ',' :: rest, acc => acc.reverse.asString :: csvFieldsAux fuel false rest []
  | fuel + 1, false, '"' :: rest, acc =>
    if acc.isEmpty then csvFieldsAux fuel true rest acc
    else csvFieldsAux fuel false rest ('"' :: acc)
  | fuel + 1, false, c :: rest, acc => csvFieldsAux fuel false rest (c :: acc)
  | fuel + 1, true, '"' :: rest, acc =>
    (if rest.head? = some '"' then csvFieldsAux fuel true rest.tail ('"' :: acc)
     else csvFieldsAux fuel false rest acc)
  | fuel + 1, true, c :: rest, acc => csvFieldsAux fuel true rest (c :: acc)

/-- Tokenisation of one line by `csv.reader` (a blank line yields the empty
record, as the Python reader does; embedded newlines inside quoted fields
are not modelled, records being split at line breaks first). -/
def csvSplitLine (line : String) : List String :=
  if line.data.isEmpty then [] else csvFieldsAux line.data.length false line.data []

/-- Removal of one trailing carriage return, as the csv reader consumes a
`'\r\n'` line terminator. -/
def chompCR (line : String) : String :=
  match line.data.getLast? with
  | some '\r' => line.data.dropLast.asString
  | _ => line

/-- Line iteration of `csv.reader(StringIO(text))`: lines are delimited by
`'\n'` (with no empty final line), and a line terminator `'\r\n'` has its
`'\r'` consumed by the reader. -/
def csvLines (text : String) : List String :=
  let ls := pySplit '\n' text
  let ls := if ls.getLast? = some "" then ls.dropLast else ls
  ls.map chompCR

/-- The record stream `csv.reader(StringIO(text_content))` yields. -/
def csvReadText (text : String) : List (List String) :=
  (csvLines text).map csvSplitLine

/-- Model of the `POST /upload` handler from the decoded request body. -/
def upload_text {F : Type} (ext : PyExt F) (api_keys : List String) (api_key : String)
    (clock : Nat → PyDatetime) (store : List (Reading F)) (text_content : String) :
    UploadOutcome F :=
  upload_data ext api_keys api_key clock store (csvReadText text_content)

/-- Entry of the `GET /files/{date}` response: the first three fields of a
line parsed as floats, the fourth kept as raw text. -/
structure FileReadingOut (F : Type) where
  longitude : F
  latitude : F
  aqi : F
  timestamp : String
deriving DecidableEq, Repr

/-- Parsing of one line of a per-date flat file:
`lon, lat, aqi, timestamp = line.strip().split(',')` (a `ValueError` unless
the split yields exactly 4 values) followed by `float` on the first three;
`none` models any raised `ValueError`. -/
def parseFileLine {F : Type} (ext : PyExt F) (line : String) : Option (FileReadingOut F) :=
  match pySplit ',' (pyStrip line) with
  | [lon, lat, aqi, timestamp] => do
    let longitude ← ext.float? lon
    let latitude ← ext.float? lat
    let a ← ext.float? aqi
    some ⟨longitude, latitude, a, timestamp⟩
  | _ => none

/-- The `for line in content.splitlines()` loop of `get_file_data`: the
first failing line raises `ValueError`, caught and re-raised as a 400, and
the partially built list is abandoned. -/
def readFileLines {F : Type} (ext : PyExt F) :
    List String → Except PyError (List (FileReadingOut F))
  | [] => .ok []
  | line :: rest =>
    match parseFileLine ext line with
    | none => .error (.httpException 400 "Invalid date format")
    | some out =>
      match readFileLines ext rest with
      | .error e => .error e
      | .ok outs => .ok (out :: outs)

/-- Model of the `GET /files/{date}` handler.  The data directory is the
map `fs` from file names to contents; the handler looks up
`DATA_DIR / f"{date}.csv"`, answers 404 when the file does not exist (an
`HTTPException` is not a `ValueError`, so the surrounding handler does not
turn it into a 400), and otherwise parses every line of the content. -/
def get_file_data {F : Type} (ext : PyExt F) (api_keys : List String) (api_key : String)
    (fs : String → Option String) (date : String) :
    Except PyError (List (FileReadingOut F)) :=
  match verify_api_key api_keys api_key with
  | .error e => .error e
  | .ok _ =>
    match fs (date ++ ".csv") with
    | none => .error (.httpException 404 "No data for this date")
    | some content => readFileLines ext (pySplitlines content)

/-- Concrete float recogniser used by the witnesses: the unsigned-decimal
fragment of Python float-literal syntax (surrounding whitespace stripped, at
most one point, at least one digit).  Python `float` accepts every string
this accepts. -/
def isSimpleFloatLit (s : String) : Bool :=
  let t := (pyStrip s).data
  decide (0 < t.length) && t.all (fun c => c.isDigit || c == '.')
    && decide ((t.filter (· == '.')).length ≤ 1) && t.any Char.isDigit

/-- Concrete instantiation of the float externals for witnesses: a float
value is represented by the literal that produced it (witnesses only use
literals such as `"1.0"` that Python formats back unchanged), and the
POSIX-seconds rendering of a datetime is an injective stand-in. -/
def extS : PyExt String where
  float? := fun s => if isSimpleFloatLit s then some (pyStrip s) else none
  floatRepr := fun v => v
  tsRepr := fun t => pyIntRepr (dtCode t) ++ ".0"

/-- Concrete ingestion clock for witnesses. -/
def clock0 : Nat → PyDatetime := fun _ => ⟨2023, 6, 15, 12, 0, 0, 0⟩

lemma verify_api_key_of_mem {api_keys : List String} {api_key : String}
    (h : api_key ∈ api_keys) : verify_api_key api_keys api_key = .ok api_key := by
  simp [verify_api_key, h]

lemma verify_api_key_of_not_mem {api_keys : List String} {api_key : String}
    (h : api_key ∉ api_keys) :
    verify_api_key api_keys api_key = .error (.httpException 403 "Invalid API key") := by
  simp [verify_api_key, h]

/-- C5: a request to any of the three data endpoints with a credential not
in the configured key set fails with status 403 (`"Invalid API key"`)
before any handler logic runs and with no side effect — in particular the
upload leaves the store unchanged — while a credential in the set passes
the check through unchanged. -/
theorem auth_gates_all_endpoints {F : Type} (ext : PyExt F) (api_keys : List String)
    (api_key : String) (clock : Nat → PyDatetime) (store : List (Reading F))
    (rows : List (List String)) (fs : String → Option String) (date : String)
    (year month day : Option Int) :
    (api_key ∉ api_keys →
      upload_data ext api_keys api_key clock store rows
          = ⟨store, .error (.httpException 403 "Invalid API key")⟩ ∧
      get_readings api_keys api_key store year month day
          = .error (.httpException 403 "Invalid API key") ∧
      get_file_data ext api_keys api_key fs date
          = .error (.httpException 403 "Invalid API key")) ∧
    (api_key ∈ api_keys → verify_api_key api_keys api_key = .ok api_key) := by
  constructor
  · intro hbad
    refine ⟨?_, ?_, ?_⟩ <;>
      simp [upload_data, get_readings, get_file_data, verify_api_key_of_not_mem hbad]
  · exact verify_api_key_of_mem

theorem auth_gates_all_endpoints_witness :
    upload_data extS ["k"] "bad" clock0 [] [["1.0", "2.0", "3.0"]]
        = ⟨[], .error (.httpException 403 "Invalid API key")⟩ ∧
    get_readings (F := String) ["k"] "bad" [] none none none
        = .error (.httpException 403 "Invalid API key") ∧
    get_file_data extS ["k"] "bad" (fun _ => none) "2023-01-01"
        = .error (.httpException 403 "Invalid API key") :=
  (auth_gates_all_endpoints extS ["k"] "bad" clock0 [] [["1.0", "2.0", "3.0"]]
      (fun _ => none) "2023-01-01" none none none).1 (by decide)

/-- C6: an authenticated file-backed read for a date whose file
`<date>.csv` does not exist in the data directory fails with 404. -/
theorem file_read_missing_404 {F : Type} (ext : PyExt F) (api_keys : List String)
    (api_key date : String) (fs : String → Option String)
    (hk : api_key ∈ api_keys) (hf : fs (date ++ ".csv") = none) :
    get_file_data ext api_keys api_key fs date
      = .error (.httpException 404 "No data for this date") := by
  simp [get_file_data, verify_api_key_of_mem hk, hf]

theorem file_read_missing_404_witness :
    get_file_data extS ["k"] "k" (fun _ => none) "2023-01-01"
      = .error (.httpException 404 "No data for this date") :=
  file_read_missing_404 extS ["k"] "k" "2023-01-01" (fun _ => none) (by decide) rfl

lemma readFileLines_error_of_bad_line {F : Type} (ext : PyExt F) (lines : List String)
    (h : ∃ l ∈ lines, parseFileLine ext l = none) :
    readFileLines ext lines = .error (.httpException 400 "Invalid date format") := by
  induction lines with
  | nil => simp at h
  | cons a t ih =>
    obtain ⟨l, hl, hnone⟩ := h
    rcases List.mem_cons.mp hl with rfl | hlt
    · simp [readFileLines, hnone]
    · cases hpa : parseFileLine ext a with
      | none => simp [readFileLines, hpa]
      | some v => simp [readFileLines, hpa, ih ⟨l, hlt, hnone⟩]

lemma readFileLines_ok_forall₂ {F : Type} (ext : PyExt F) :
    ∀ (lines : List String) (outs : List (FileReadingOut F)),
      readFileLines ext lines = .ok outs →
      List.Forall₂ (fun line out => parseFileLine ext line = some out) lines outs := by
  intro lines
  induction lines with
  | nil =>
    intro outs h
    simp only [readFileLines] at h
    cases h
    exact List.Forall₂.nil
  | cons a t ih =>
    intro outs h
    simp only [readFileLines] at h
    cases hpa : parseFileLine ext a with
    | none => rw [hpa] at h; cases h
    | some v =>
      rw [hpa] at h
      cases hrec : readFileLines ext t with
      | error e => rw [hrec] at h; cases h
      | ok outs2 =>
        rw [hrec] at h
        cases h
        exact List.Forall₂.cons hpa (ih outs2 hrec)

/-- C7: on an authenticated file-backed read of an existing file, one line
that does not split into exactly 4 comma-separated fields with numeric
first three aborts the whole request with 400 (no partial results), and a
successful response returns every line, in order, parsed as
longitude/latitude/aqi floats with the timestamp kept as text. -/
theorem file_read_all_or_nothing {F : Type} (ext : PyExt F) (api_keys : List String)
    (api_key date content : String) (fs : String → Option String)
    (hk : api_key ∈ api_keys) (hf : fs (date ++ ".csv") = some content) :
    ((∃ line ∈ pySplitlines content, parseFileLine ext line = none) →
      get_file_data ext api_keys api_key fs date
        = .error (.httpException 400 "Invalid date format")) ∧
    (∀ outs, get_file_data ext api_keys api_key fs date = .ok outs →
      List.Forall₂ (fun line out => parseFileLine ext line = some out)
        (pySplitlines content) outs) := by
  constructor
  · intro hbad
    simp [get_file_data, verify_api_key_of_mem hk, hf,
      readFileLines_error_of_bad_line ext _ hbad]
  · intro outs h
    simp only [get_file_data, verify_api_key_of_mem hk, hf] at h
    exact readFileLines_ok_forall₂ ext _ outs h

theorem file_read_all_or_nothing_witness :
    get_file_data extS ["k"] "k"
        (fun p => if p = "2023-01-01.csv" then some "1.0,2.0,3.0,t1\n4.0,5.0" else none)
        "2023-01-01"
      = .error (.httpException 400 "Invalid date format") :=
  (file_read_all_or_nothing extS ["k"] "k" "2023-01-01" "1.0,2.0,3.0,t1\n4.0,5.0"
      (fun p => if p = "2023-01-01.csv" then some "1.0,2.0,3.0,t1\n4.0,5.0" else none)
      (by decide) (by rfl)).1 ⟨"4.0,5.0", by decide, by rfl⟩

lemma datetime?_error_of_bad_month {y m d h mi s : Int} (hm : m < 1 ∨ 12 < m) :
    datetime? y m d h mi s = .error .valueError := by
  unfold datetime?
  rw [if_neg]
  intro hc
  obtain ⟨_, _, h3, h4, _⟩ := hc
  rcases hm with hm | hm <;> omega

lemma datetime?_error_of_bad_day {y m d h mi s : Int}
    (hd : d < 1 ∨ (daysInMonth y.toNat m.toNat : Int) < d) :
    datetime? y m d h mi s = .error .valueError := by
  unfold datetime?
  rw [if_neg]
  intro hc
  obtain ⟨_, _, _, _, h5, h6, _⟩ := hc
  rcases hd with hd | hd <;> omega

/-- C10: an authenticated query whose `month` is outside 1..12, or whose
`day` is outside the valid range of the given month, reaches the unguarded
`datetime(...)` constructor, so the raised `ValueError` escapes the handler
as an unhandled server error — not an empty result and not a 4xx
validation response. -/
theorem invalid_date_components_unhandled {F : Type} (api_keys : List String)
    (api_key : String) (store : List (Reading F)) (y m : Int) (day : Option Int)
    (hk : api_key ∈ api_keys) :
    ((m < 1 ∨ 12 < m) →
      get_readings api_keys api_key store (some y) (some m) day = .error .valueError) ∧
    (∀ d : Int, 1 ≤ m → m ≤ 12 → (d < 1 ∨ (daysInMonth y.toNat m.toNat : Int) < d) →
      get_readings api_keys api_key store (some y) (some m) (some d)
        = .error .valueError) := by
  constructor
  · intro hm
    cases day with
    | none =>
      have hne : ¬(m = 12) := by rcases hm with hm | hm <;> omega
      simp [get_readings, verify_api_key_of_mem hk, buildWindow,
        datetime?_error_of_bad_month hm, hne]
    | some d =>
      simp [get_readings, verify_api_key_of_mem hk, buildWindow,
        datetime?_error_of_bad_month hm]
  · intro d _ _ hd
    simp [get_readings, verify_api_key_of_mem hk, buildWindow,
      datetime?_error_of_bad_day hd]

theorem invalid_date_components_unhandled_witness :
    get_readings (F := String) ["k"] "k" [] (some 2023) (some 13) (some 1)
        = .error .valueError ∧
    get_readings (F := String) ["k"] "k" [] (some 2023) (some 4) (some 31)
        = .error .valueError :=
  ⟨(invalid_date_components_unhandled ["k"] "k" [] 2023 13 (some 1) (by decide)).1
      (by omega),
   (invalid_date_components_unhandled ["k"] "k" [] 2023 4 (some 31) (by decide)).2
      31 (by omega) (by omega) (by right; decide)⟩

lemma get_readings_eq_of_window {F : Type} {api_keys : List String} {api_key : String}
    (store : List (Reading F)) {year month day : Option Int}
    {w : Option (PyDatetime × PyDatetime)}
    (hk : api_key ∈ api_keys) (hw : buildWindow year month day = .ok w) :
    get_readings api_keys api_key store year month day
      = .ok (((store.filter (fun r => inWindow w r.timestamp)).insertionSort
                newerFirst).map serializeReading) := by
  unfold get_readings
  rw [verify_api_key_of_mem hk, hw]
  by_cases h : ((store.filter (fun r => inWindow w r.timestamp)).insertionSort
      newerFirst).isEmpty
  · simp [h, List.isEmpty_iff.mp h]
  · simp [h]

lemma queryOut_mem_inWindow {F : Type} (store : List (Reading F))
    (w : Option (PyDatetime × PyDatetime)) :
    ∀ o ∈ ((store.filter (fun r => inWindow w r.timestamp)).insertionSort
              newerFirst).map serializeReading,
      inWindow w o.timestamp = true := by
  intro o ho
  obtain ⟨r, hr, rfl⟩ := List.mem_map.mp ho
  have hr2 := (List.mem_insertionSort newerFirst).mp hr
  exact (List.mem_filter.mp hr2).2

lemma queryOut_mem_of_inWindow {F : Type} {store : List (Reading F)}
    {w : Option (PyDatetime × PyDatetime)} {r : Reading F}
    (hr : r ∈ store) (hin : inWindow w r.timestamp = true) :
    serializeReading r ∈ ((store.filter (fun r => inWindow w r.timestamp)).insertionSort
        newerFirst).map serializeReading :=
  List.mem_map_of_mem serializeReading
    ((List.mem_insertionSort newerFirst).mpr (List.mem_filter.mpr ⟨hr, hin⟩))

lemma queryOut_sorted {F : Type} (store : List (Reading F))
    (w : Option (PyDatetime × PyDatetime)) :
    (((store.filter (fun r => inWindow w r.timestamp)).insertionSort
        newerFirst).map serializeReading).Sorted
      (fun a b => dtLe b.timestamp a.timestamp) := by
  have hs := List.sorted_insertionSort newerFirst
    (store.filter (fun r => inWindow w r.timestamp))
  exact List.Pairwise.map serializeReading (fun a b h => h) hs

lemma inWindow_some_iff {s e t : PyDatetime} :
    inWindow (some (s, e)) t = true ↔ dtLe s t ∧ dtLt t e := by
  simp [inWindow]

/-- C1 (counterexample): a store holding exactly one reading timestamped
2023-06-15 23:59:59 queried with `year=2023, month=6, day=15` returns the
empty list — the handler filters with `timestamp < end_date` where
`end_date` is `23:59:59`, so the reading the claim requires to be returned
is excluded. -/
theorem day_query_excludes_235959 :
    get_readings (F := String) ["k"] "k"
        [⟨"a", "1.0", "2.0", "3.0", ⟨2023, 6, 15, 23, 59, 59, 0⟩, "1.0,2.0,3.0"⟩]
        (some 2023) (some 6) (some 15) = .ok [] := by
  rfl

/-- C1 (amended): with valid `year, month, day`, the day window is the
half-open `[day 00:00:00, day 23:59:59)`: every returned reading has
`00:00:00 ≤ timestamp < 23:59:59` of that day, and every stored reading in
that range is returned; a reading at exactly `day 23:59:59` (and hence one
at `day+1 00:00:00`) is not returned. -/
theorem day_query_window {F : Type} (api_keys : List String) (api_key : String)
    (store : List (Reading F)) (y m d : Int) (s e : PyDatetime)
    (hk : api_key ∈ api_keys)
    (hs : datetime? y m d 0 0 0 = .ok s)
    (he : datetime? y m d 23 59 59 = .ok e) :
    ∃ out, get_readings api_keys api_key store (some y) (some m) (some d) = .ok out ∧
      (∀ o ∈ out, dtLe s o.timestamp ∧ dtLt o.timestamp e) ∧
      (∀ r ∈ store, dtLe s r.timestamp → dtLt r.timestamp e →
        serializeReading r ∈ out) := by
  have hw : buildWindow (some y) (some m) (some d) = .ok (some (s, e)) := by
    simp [buildWindow, hs, he]
  refine ⟨_, get_readings_eq_of_window store hk hw, ?_, ?_⟩
  · intro o ho
    exact inWindow_some_iff.mp (queryOut_mem_inWindow store (some (s, e)) o ho)
  · intro r hr h1 h2
    exact queryOut_mem_of_inWindow hr (inWindow_some_iff.mpr ⟨h1, h2⟩)

theorem day_query_window_witness :
    ∃ out,
      get_readings (F := String) ["k"] "k"
          [⟨"a", "1.0", "2.0", "3.0", ⟨2023, 6, 15, 12, 30, 0, 0⟩, "x"⟩,
           ⟨"b", "1.0", "2.0", "3.0", ⟨2023, 6, 16, 0, 0, 0, 0⟩, "y"⟩]
          (some 2023) (some 6) (some 15) = .ok out ∧
      (∀ o ∈ out, dtLe ⟨2023, 6, 15, 0, 0, 0, 0⟩ o.timestamp ∧
        dtLt o.timestamp ⟨2023, 6, 15, 23, 59, 59, 0⟩) ∧
      (∀ r ∈ [⟨"a", "1.0", "2.0", "3.0", ⟨2023, 6, 15, 12, 30, 0, 0⟩, "x"⟩,
              ⟨"b", "1.0", "2.0", "3.0", ⟨2023, 6, 16, 0, 0, 0, 0⟩, "y"⟩],
        dtLe ⟨2023, 6, 15, 0, 0, 0, 0⟩ (Reading.timestamp (F := String) r) →
        dtLt (Reading.timestamp (F := String) r) ⟨2023, 6, 15, 23, 59, 59, 0⟩ →
        serializeReading r ∈ out) :=
  day_query_window ["k"] "k" _ 2023 6 15 _ _ (by decide) (by rfl) (by rfl)

lemma daysInMonth_pos (y m : Nat) : 1 ≤ daysInMonth y m := by
  unfold daysInMonth
  split
  · split <;> omega
  · split <;> omega

lemma datetime?_first_of_month {y m : Int} (hy1 : 1 ≤ y) (hy2 : y ≤ 9999)
    (hm1 : 1 ≤ m) (hm2 : m ≤ 12) :
    datetime? y m 1 0 0 0 = .ok ⟨y.toNat, m.toNat, 1, 0, 0, 0, 0⟩ := by
  have hd : (1 : Int) ≤ (daysInMonth y.toNat m.toNat : Int) := by
    have := daysInMonth_pos y.toNat m.toNat
    omega
  unfold datetime?
  rw [if_pos ⟨hy1, hy2, hm1, hm2, by omega, hd, by omega, by omega, by omega, by omega,
    by omega, by omega⟩]
  rfl

/-- C3: with valid `year` and `month` and no `day`, the window is the
half-open `[1st of the month 00:00:00, 1st of the next month 00:00:00)`:
everything returned lies in it, everything stored in it is returned, and
for `month = 12` the exclusive upper bound rolls into January 1 of
`year + 1`. -/
theorem month_query_window {F : Type} (api_keys : List String) (api_key : String)
    (store : List (Reading F)) (y m : Int)
    (hk : api_key ∈ api_keys) (hy : 1 ≤ y ∧ y ≤ 9998) (hm : 1 ≤ m ∧ m ≤ 12) :
    ∃ out, get_readings api_keys api_key store (some y) (some m) none = .ok out ∧
      (∀ o ∈ out, dtLe ⟨y.toNat, m.toNat, 1, 0, 0, 0, 0⟩ o.timestamp ∧
        dtLt o.timestamp (if m = 12 then ⟨y.toNat + 1, 1, 1, 0, 0, 0, 0⟩
                          else ⟨y.toNat, m.toNat + 1, 1, 0, 0, 0, 0⟩)) ∧
      (∀ r ∈ store, dtLe ⟨y.toNat, m.toNat, 1, 0, 0, 0, 0⟩ r.timestamp →
        dtLt r.timestamp (if m = 12 then ⟨y.toNat + 1, 1, 1, 0, 0, 0, 0⟩
                          else ⟨y.toNat, m.toNat + 1, 1, 0, 0, 0, 0⟩) →
        serializeReading r ∈ out) := by
  have hw : buildWindow (some y) (some m) none
      = .ok (some (⟨y.toNat, m.toNat, 1, 0, 0, 0, 0⟩,
          if m = 12 then ⟨y.toNat + 1, 1, 1, 0, 0, 0, 0⟩
          else ⟨y.toNat, m.toNat + 1, 1, 0, 0, 0, 0⟩)) := by
    by_cases h12 : m = 12
    · subst h12
      have h1 : (12 : Int).toNat = 12 := by omega
      have h2 : (y + 1).toNat = y.toNat + 1 := by omega
      simp only [buildWindow, if_pos rfl,
        datetime?_first_of_month hy.1 (by omega) hm.1 hm.2,
        datetime?_first_of_month (by omega : (1 : Int) ≤ y + 1) (by omega)
          (by omega : (1 : Int) ≤ 1) (by omega), h1, h2, if_pos]
      simp [Int.toNat_one]
    · have h2 : (m + 1).toNat = m.toNat + 1 := by omega
      simp only [buildWindow, if_neg h12,
        datetime?_first_of_month hy.1 (by omega) hm.1 hm.2,
        datetime?_first_of_month hy.1 (by omega) (by omega : (1 : Int) ≤ m + 1)
          (by omega : m + 1 ≤ 12), h2]
  refine ⟨_, get_readings_eq_of_window store hk hw, ?_, ?_⟩
  · intro o ho
    exact inWindow_some_iff.mp (queryOut_mem_inWindow store _ o ho)
  · intro r hr h1 h2
    exact queryOut_mem_of_inWindow hr (inWindow_some_iff.mpr ⟨h1, h2⟩)

theorem month_query_window_witness :
    ∃ out,
      get_readings (F := String) ["k"] "k"
          [⟨"a", "1.0", "2.0", "3.0", ⟨2023, 12, 31, 23, 59, 59, 0⟩, "x"⟩,
           ⟨"b", "1.0", "2.0", "3.0", ⟨2024, 1, 1, 0, 0, 0, 0⟩, "y"⟩]
          (some 2023) (some 12) none = .ok out ∧
      (∀ o ∈ out, dtLe ⟨2023, 12, 1, 0, 0, 0, 0⟩ o.timestamp ∧
        dtLt o.timestamp (if (12 : Int) = 12 then ⟨2024, 1, 1, 0, 0, 0, 0⟩
                          else ⟨2023, 13, 1, 0, 0, 0, 0⟩)) ∧
      (∀ r ∈ [⟨"a", "1.0", "2.0", "3.0", ⟨2023, 12, 31, 23, 59, 59, 0⟩, "x"⟩,
              ⟨"b", "1.0", "2.0", "3.0", ⟨2024, 1, 1, 0, 0, 0, 0⟩, "y"⟩],
        dtLe ⟨2023, 12, 1, 0, 0, 0, 0⟩ (Reading.timestamp (F := String) r) →
        dtLt (Reading.timestamp (F := String) r)
          (if (12 : Int) = 12 then ⟨2024, 1, 1, 0, 0, 0, 0⟩
           else ⟨2023, 13, 1, 0, 0, 0, 0⟩) →
        serializeReading r ∈ out) :=
  month_query_window ["k"] "k" _ 2023 12 (by decide) (by omega) (by omega)

/-- C4: every successful query answer is ordered by timestamp descending
(newest first, equal timestamps adjacent), and when no stored reading
matches the window the result is the empty list, not an error. -/
theorem query_results_newest_first {F : Type} (api_keys : List String) (api_key : String)
    (store : List (Reading F)) (year month day : Option Int)
    (w : Option (PyDatetime × PyDatetime))
    (hk : api_key ∈ api_keys) (hw : buildWindow year month day = .ok w) :
    ∃ out, get_readings api_keys api_key store year month day = .ok out ∧
      out.Sorted (fun a b => dtLe b.timestamp a.timestamp) ∧
      ((∀ r ∈ store, inWindow w r.timestamp = false) → out = []) := by
  refine ⟨_, get_readings_eq_of_window store hk hw, queryOut_sorted store w, ?_⟩
  intro hnone
  have hfil : store.filter (fun r => inWindow w r.timestamp) = [] := by
    rw [List.filter_eq_nil_iff]
    intro r hr
    simp [hnone r hr]
  rw [hfil]
  rfl

theorem query_results_newest_first_witness :
    ∃ out,
      get_readings (F := String) ["k"] "k"
          [⟨"a", "1.0", "2.0", "3.0", ⟨2022, 1, 1, 0, 0, 0, 0⟩, "old"⟩,
           ⟨"b", "1.0", "2.0", "3.0", ⟨2023, 1, 1, 0, 0, 0, 0⟩, "new"⟩]
          none none none = .ok out ∧
      out.Sorted (fun a b => dtLe b.timestamp a.timestamp) ∧
      ((∀ r ∈ [⟨"a", "1.0", "2.0", "3.0", ⟨2022, 1, 1, 0, 0, 0, 0⟩, "old"⟩,
               ⟨"b", "1.0", "2.0", "3.0", ⟨2023, 1, 1, 0, 0, 0, 0⟩, "new"⟩],
          inWindow none (Reading.timestamp (F := String) r) = false) → out = []) :=
  query_results_newest_first ["k"] "k" _ none none none none (by decide) (by rfl)

lemma readingOfRow_isSome {F : Type} (ext : PyExt F) (now : PyDatetime) (idx : Nat)
    (row : List String) : (readingOfRow ext now idx row).isSome = validRow ext row := by
  unfold readingOfRow validRow
  rcases row with _ | ⟨f0, _ | ⟨f1, _ | ⟨f2, _ | rest⟩⟩⟩ <;> try simp
  cases ext.float? f0 <;> cases ext.float? f1 <;> cases ext.float? f2 <;> simp

lemma enumFrom_filterMap_length {F : Type} (ext : PyExt F) (clock : Nat → PyDatetime) :
    ∀ (rows : List (List String)) (n : Nat),
      ((List.enumFrom n rows).filterMap
          (fun p => readingOfRow ext (clock p.1) p.1 p.2)).length
        = (rows.filter (validRow ext)).length := by
  intro rows
  induction rows with
  | nil => intro n; rfl
  | cons a t ih =>
    intro n
    simp only [List.enumFrom, List.filterMap_cons, List.filter_cons]
    cases h : readingOfRow ext (clock n) n a with
    | none =>
      have hv : validRow ext a = false := by
        have hh := readingOfRow_isSome ext (clock n) n a
        rw [h] at hh
        simpa using hh.symm
      simp [hv, ih (n + 1)]
    | some r =>
      have hv : validRow ext a = true := by
        have hh := readingOfRow_isSome ext (clock n) n a
        rw [h] at hh
        simpa using hh.symm
      simp [hv, ih (n + 1)]

lemma buildReadings_length {F : Type} (ext : PyExt F) (clock : Nat → PyDatetime)
    (rows : List (List String)) :
    (buildReadings ext clock rows).length = (rows.filter (validRow ext)).length := by
  unfold buildReadings
  rw [List.enum]
  exact enumFrom_filterMap_length ext clock rows 0

/-- C2: an authenticated upload whose batch commits stores exactly one
reading per row with exactly 3 float-parseable fields, appended to the
store, and responds with that count; rows with the wrong field count or
non-numeric fields contribute nothing and do not abort the batch or raise
an error. -/
theorem upload_stores_exactly_valid_rows {F : Type} (ext : PyExt F)
    (api_keys : List String) (api_key : String) (clock : Nat → PyDatetime)
    (store : List (Reading F)) (rows : List (List String))
    (hk : api_key ∈ api_keys)
    (hid : uniqueIds (store ++ buildReadings ext clock rows)) :
    upload_data ext api_keys api_key clock store rows
        = ⟨store ++ buildReadings ext clock rows,
           .ok ("Successfully uploaded "
                ++ pyIntRepr ((rows.filter (validRow ext)).length) ++ " readings")⟩ ∧
    (buildReadings ext clock rows).length = (rows.filter (validRow ext)).length := by
  have hlen := buildReadings_length ext clock rows
  refine ⟨?_, hlen⟩
  simp only [upload_data, verify_api_key_of_mem hk, dbInsertMany, if_pos hid, hlen]

theorem upload_stores_exactly_valid_rows_witness :
    upload_data extS ["k"] "k" clock0 []
        [["1.0", "2.0", "50"], ["bad", "row"], ["3.0", "4.0", "75"]]
      = ⟨buildReadings extS clock0
           [["1.0", "2.0", "50"], ["bad", "row"], ["3.0", "4.0", "75"]],
         .ok "Successfully uploaded 2 readings"⟩ ∧
    (buildReadings extS clock0
        [["1.0", "2.0", "50"], ["bad", "row"], ["3.0", "4.0", "75"]]).length = 2 :=
  upload_stores_exactly_valid_rows extS ["k"] "k" clock0 []
    [["1.0", "2.0", "50"], ["bad", "row"], ["3.0", "4.0", "75"]] (by decide) (by decide)

lemma pyIntReprAux_eq_digits :
    ∀ (fuel n : Nat), n ≤ fuel →
      pyIntReprAux fuel n = (Nat.digits 10 n).reverse.map Nat.digitChar := by
  intro fuel
  induction fuel with
  | zero =>
    intro n hn
    have h0 : n = 0 := Nat.le_zero.mp hn
    subst h0
    simp [pyIntReprAux]
  | succ f ih =>
    intro n hn
    by_cases h0 : n = 0
    · subst h0
      simp [pyIntReprAux]
    · have hdiv : n / 10 ≤ f := by
        have h1 : n / 10 < n := Nat.div_lt_self (Nat.pos_of_ne_zero h0) (by omega)
        omega
      rw [pyIntReprAux, if_neg h0, ih _ hdiv,
        Nat.digits_def' (by norm_num : (1 : ℕ) < 10) (Nat.pos_of_ne_zero h0)]
      simp

lemma digitChar_inj10 :
    ∀ a, a < 10 → ∀ b, b < 10 → Nat.digitChar a = Nat.digitChar b → a = b := by
  decide

lemma digitChar_ne_underscore : ∀ a, a < 10 → Nat.digitChar a ≠ '_' := by
  decide

lemma map_digitChar_inj :
    ∀ (l1 l2 : List Nat), (∀ x ∈ l1, x < 10) → (∀ x ∈ l2, x < 10) →
      l1.map Nat.digitChar = l2.map Nat.digitChar → l1 = l2 := by
  intro l1
  induction l1 with
  | nil =>
    intro l2 _ _ h
    cases l2 with
    | nil => rfl
    | cons y t2 => simp at h
  | cons x t ih =>
    intro l2 h1 h2 h
    cases l2 with
    | nil => simp at h
    | cons y t2 =>
      simp only [List.map_cons, List.cons.injEq] at h
      have hx := digitChar_inj10 x (h1 x (by simp)) y (h2 y (by simp)) h.1
      rw [hx, ih t2 (fun z hz => h1 z (by simp [hz])) (fun z hz => h2 z (by simp [hz])) h.2]

lemma pyIntRepr_no_underscore (n : Nat) : '_' ∉ (pyIntRepr n).data := by
  by_cases h0 : n = 0
  · subst h0
    simp [pyIntRepr]
  · simp only [pyIntRepr, if_neg h0]
    have hdata : ((pyIntReprAux n n).asString).data = pyIntReprAux n n := rfl
    rw [hdata, pyIntReprAux_eq_digits n n le_rfl]
    intro hmem
    obtain ⟨x, hx, hdc⟩ := List.mem_map.mp hmem
    have hx10 : x < 10 :=
      Nat.digits_lt_base (by norm_num) (List.mem_reverse.mp hx)
    exact digitChar_ne_underscore x hx10 hdc

lemma pyIntRepr_data_inj {a b : Nat}
    (h : (pyIntRepr a).data = (pyIntRepr b).data) : a = b := by
  by_cases ha : a = 0 <;> by_cases hb : b = 0
  · omega
  · exfalso
    subst ha
    simp only [pyIntRepr, if_pos rfl, if_neg hb] at h
    have h2 : ['0'] = pyIntReprAux b b := h
    rw [pyIntReprAux_eq_digits b b le_rfl] at h2
    rcases hrev : (Nat.digits 10 b).reverse with _ | ⟨c, t⟩
    · rw [hrev] at h2; simp at h2
    · rw [hrev] at h2
      rcases t with _ | ⟨c2, t2⟩
      · simp only [List.map_cons, List.map_nil, List.cons.injEq, and_true] at h2
        have hc : c ∈ Nat.digits 10 b := by
          have := congrArg List.reverse hrev
          simp at this
          rw [this]
          simp
        have hc10 : c < 10 := Nat.digits_lt_base (by norm_num) hc
        have hc0 : c = 0 :=
          digitChar_inj10 c hc10 0 (by norm_num) h2.symm
        have hdig : Nat.digits 10 b = [0] := by
          have := congrArg List.reverse hrev
          simpa [hc0] using this
        have hb0 : b = 0 := by
          have := Nat.ofDigits_digits 10 b
          rw [hdig] at this
          simpa [Nat.ofDigits] using this.symm
        exact hb hb0
      · simp at h2
  · exfalso
    subst hb
    simp only [pyIntRepr, if_pos rfl, if_neg ha] at h
    have h2 : pyIntReprAux a a = ['0'] := h
    rw [pyIntReprAux_eq_digits a a le_rfl] at h2
    rcases hrev : (Nat.digits 10 a).reverse with _ | ⟨c, t⟩
    · rw [hrev] at h2; simp at h2
    · rw [hrev] at h2
      rcases t with _ | ⟨c2, t2⟩
      · simp only [List.map_cons, List.map_nil, List.cons.injEq, and_true] at h2
        have hc : c ∈ Nat.digits 10 a := by
          have := congrArg List.reverse hrev
          simp at this
          rw [this]
          simp
        have hc10 : c < 10 := Nat.digits_lt_base (by norm_num) hc
        have hc0 : c = 0 :=
          digitChar_inj10 c hc10 0 (by norm_num) h2
        have hdig : Nat.digits 10 a = [0] := by
          have := congrArg List.reverse hrev
          simpa [hc0] using this
        have ha0 : a = 0 := by
          have := Nat.ofDigits_digits 10 a
          rw [hdig] at this
          simpa [Nat.ofDigits] using this.symm
        exact ha ha0
      · simp at h2
  · simp only [pyIntRepr, if_neg ha, if_neg hb] at h
    have h2 : pyIntReprAux a a = pyIntReprAux b b := h
    rw [pyIntReprAux_eq_digits a a le_rfl, pyIntReprAux_eq_digits b b le_rfl] at h2
    have h3 := map_digitChar_inj _ _
      (fun x hx => Nat.digits_lt_base (by norm_num) (List.mem_reverse.mp hx))
      (fun x hx => Nat.digits_lt_base (by norm_num) (List.mem_reverse.mp hx)) h2
    have h4 := List.reverse_injective h3
    exact Nat.digits.injective 10 h4

lemma takeWhile_append_sep (sep : Char) :
    ∀ (xs ys : List Char), sep ∉ xs →
      (xs ++ sep :: ys).takeWhile (fun c => decide (c ≠ sep)) = xs := by
  intro xs
  induction xs with
  | nil =>
    intro ys _
    simp [List.takeWhile_cons]
  | cons x t ih =>
    intro ys hx
    have hxs : x ≠ sep := fun hh => hx (by simp [hh])
    simp only [List.cons_append, List.takeWhile_cons, decide_eq_true_eq]
    rw [if_pos hxs, ih ys (fun hh => hx (by simp [hh]))]

lemma last_component_eq {a b c d : List Char} {sep : Char}
    (h : a ++ sep :: b = c ++ sep :: d) (hb : sep ∉ b) (hd : sep ∉ d) : b = d := by
  have h1 : b.reverse ++ sep :: a.reverse = d.reverse ++ sep :: c.reverse := by
    have h2 := congrArg List.reverse h
    simpa [List.reverse_append, List.append_assoc] using h2
  have h3 := congrArg (List.takeWhile (fun ch => decide (ch ≠ sep))) h1
  rw [takeWhile_append_sep sep b.reverse a.reverse (by simpa using hb),
    takeWhile_append_sep sep d.reverse c.reverse (by simpa using hd)] at h3
  exact List.reverse_injective h3

lemma readingOfRow_id_shape {F : Type} {ext : PyExt F} {t : PyDatetime} {i : Nat}
    {row : List String} {r : Reading F} (h : readingOfRow ext t i row = some r) :
    ∃ s : String, r.id = s ++ "_" ++ pyIntRepr i := by
  unfold readingOfRow at h
  split at h
  · split at h
    · injection h with h
      subst h
      exact ⟨_, rfl⟩
    · exact absurd h (by simp)
  · exact absurd h (by simp)

lemma readingOfRow_id_inj {F : Type} {ext : PyExt F} {t1 t2 : PyDatetime} {i1 i2 : Nat}
    {row1 row2 : List String} {r1 r2 : Reading F}
    (h1 : readingOfRow ext t1 i1 row1 = some r1)
    (h2 : readingOfRow ext t2 i2 row2 = some r2)
    (hid : r1.id = r2.id) : i1 = i2 := by
  obtain ⟨s1, hs1⟩ := readingOfRow_id_shape h1
  obtain ⟨s2, hs2⟩ := readingOfRow_id_shape h2
  rw [hs1, hs2] at hid
  have hdata := congrArg String.data hid
  simp only [String.data_append] at hdata
  have hdata2 : s1.data ++ '_' :: (pyIntRepr i1).data
      = s2.data ++ '_' :: (pyIntRepr i2).data := by
    simpa using hdata
  exact pyIntRepr_data_inj
    (last_component_eq hdata2 (pyIntRepr_no_underscore i1) (pyIntRepr_no_underscore i2))

lemma nodup_ids_filterMap {F : Type} (ext : PyExt F) (clock : Nat → PyDatetime) :
    ∀ l : List (Nat × List String),
      l.Pairwise (fun p q => p.1 ≠ q.1) →
      ((l.filterMap (fun p => readingOfRow ext (clock p.1) p.1 p.2)).map Reading.id).Nodup := by
  intro l
  induction l with
  | nil => intro _; simp
  | cons p t ih =>
    intro hp
    rw [List.pairwise_cons] at hp
    obtain ⟨hhead, htail⟩ := hp
    cases hp0 : readingOfRow ext (clock p.1) p.1 p.2 with
    | none => simpa [List.filterMap_cons, hp0] using ih htail
    | some r =>
      simp only [List.filterMap_cons, hp0, List.map_cons, List.nodup_cons]
      refine ⟨?_, ih htail⟩
      intro hmem
      obtain ⟨r2, hr2mem, hr2id⟩ := List.mem_map.mp hmem
      obtain ⟨q, hq, hq2⟩ := List.mem_filterMap.mp hr2mem
      exact hhead q hq (readingOfRow_id_inj hp0 hq2 hr2id.symm)

lemma buildReadings_ids_nodup {F : Type} (ext : PyExt F) (clock : Nat → PyDatetime)
    (rows : List (List String)) : uniqueIds (buildReadings ext clock rows) := by
  unfold uniqueIds buildReadings
  apply nodup_ids_filterMap
  have h : ((rows.enum.map Prod.fst).Nodup) := List.nodup_enum_map_fst rows
  rw [List.Nodup, List.pairwise_map] at h
  exact h

/-- C8: the ids generated for the surviving rows of one uploaded batch are
pairwise distinct — the row ordinal is the final `_`-separated component of
`id = f"{timestamp}_{longitude}_{latitude}_{idx}"`, so distinct ordinals
give distinct ids whatever the timestamp and coordinate renderings are —
and an upload therefore preserves the store-wide invariant that `id` is
unique across all stored readings (the primary key rejects any colliding
batch and the store is unchanged). -/
theorem reading_ids_unique {F : Type} (ext : PyExt F) (api_keys : List String)
    (api_key : String) (clock : Nat → PyDatetime) (store : List (Reading F))
    (rows : List (List String)) :
    uniqueIds (buildReadings ext clock rows) ∧
    (uniqueIds store →
      uniqueIds (upload_data ext api_keys api_key clock store rows).store) := by
  refine ⟨buildReadings_ids_nodup ext clock rows, ?_⟩
  intro hstore
  unfold upload_data
  cases hv : verify_api_key api_keys api_key with
  | error e => exact hstore
  | ok k =>
    simp only
    by_cases hcheck : uniqueIds (store ++ buildReadings ext clock rows)
    · simp only [dbInsertMany, if_pos hcheck]
      exact hcheck
    · simp only [dbInsertMany, if_neg hcheck]
      exact hstore

theorem reading_ids_unique_witness :
    uniqueIds (buildReadings extS clock0 [["1.0", "2.0", "3.0"], ["4.0", "5.0", "6.0"]]) ∧
    uniqueIds (upload_data extS ["k"] "k" clock0 ([] : List (Reading String))
        [["1.0", "2.0", "3.0"], ["4.0", "5.0", "6.0"]]).store :=
  ⟨(reading_ids_unique extS ["k"] "k" clock0 [] [["1.0", "2.0", "3.0"], ["4.0", "5.0", "6.0"]]).1,
   (reading_ids_unique extS ["k"] "k" clock0 [] [["1.0", "2.0", "3.0"], ["4.0", "5.0", "6.0"]]).2
     (by decide)⟩

lemma readingOfRow_raw_data {F : Type} {ext : PyExt F} {t : PyDatetime} {i : Nat}
    {row : List String} {r : Reading F} (h : readingOfRow ext t i row = some r) :
    r.raw_data = String.intercalate "," row := by
  unfold readingOfRow at h
  split at h
  · split at h
    · injection h with h
      subst h
      rfl
    · exact absurd h (by simp)
  · exact absurd h (by simp)

lemma snd_mem_of_mem_enumFrom {α : Type _} :
    ∀ {l : List α} {n : Nat} {p : Nat × α}, p ∈ List.enumFrom n l → p.2 ∈ l := by
  intro l
  induction l with
  | nil => intro n p h; simp [List.enumFrom] at h
  | cons a t ih =>
    intro n p h
    rcases List.mem_cons.mp h with rfl | h2
    · simp
    · exact List.mem_cons_of_mem a (ih h2)

/-- C9 (counterexample): uploading the single CSV line `1.0,"2.0",3.0`
stores one reading whose `raw_data` is `1.0,2.0,3.0`: the csv reader strips
the quoting, and `",".join(row)` does not restore the original text, so the
stored `raw_data` is not the row verbatim as it appeared in the payload. -/
theorem raw_data_not_verbatim :
    (upload_text extS ["k"] "k" clock0 [] "1.0,\"2.0\",3.0").store.map Reading.raw_data
        = ["1.0,2.0,3.0"] ∧
    "1.0,2.0,3.0" ≠ "1.0,\"2.0\",3.0" :=
  ⟨by rfl, by decide⟩

/-- C9 (amended): every reading stored by an upload carries as `raw_data`
the parsed CSV fields of its source line re-joined with commas; this equals
the original line exactly when that line is itself the comma-join of its
parsed fields (no CSV quoting). -/
theorem raw_data_is_joined_fields {F : Type} (ext : PyExt F) (clock : Nat → PyDatetime)
    (text : String) :
    ∀ r ∈ buildReadings ext clock (csvReadText text), ∃ line ∈ csvLines text,
      r.raw_data = String.intercalate "," (csvSplitLine line) ∧
      (line = String.intercalate "," (csvSplitLine line) → r.raw_data = line) := by
  intro r hr
  unfold buildReadings at hr
  obtain ⟨p, hp, hsome⟩ := List.mem_filterMap.mp hr
  have hp2 : p.2 ∈ csvReadText text := by
    rw [List.enum] at hp
    exact snd_mem_of_mem_enumFrom hp
  obtain ⟨line, hline, hlineEq⟩ := List.mem_map.mp hp2
  refine ⟨line, hline, ?_, ?_⟩
  · rw [readingOfRow_raw_data hsome, hlineEq]
  · intro hjoin
    rw [readingOfRow_raw_data hsome, ← hlineEq, ← hjoin]

theorem raw_data_is_joined_fields_witness :
    ∃ line ∈ csvLines "1.0,2.0,3.0",
      Reading.raw_data (F := String)
          ⟨extS.tsRepr (clock0 0) ++ "_" ++ "1.0" ++ "_" ++ "2.0" ++ "_" ++ pyIntRepr 0,
           "1.0", "2.0", "3.0", clock0 0, "1.0,2.0,3.0"⟩
        = String.intercalate "," (csvSplitLine line) ∧
      (line = String.intercalate "," (csvSplitLine line) →
        Reading.raw_data (F := String)
            ⟨extS.tsRepr (clock0 0) ++ "_" ++ "1.0" ++ "_" ++ "2.0" ++ "_" ++ pyIntRepr 0,
             "1.0", "2.0", "3.0", clock0 0, "1.0,2.0,3.0"⟩
          = line) :=
  raw_data_is_joined_fields extS clock0 "1.0,2.0,3.0" _ (by decide)
